import Mathlib

/-!
Verification of the ARBO adaptive-parallelism estimator.

This file is a shallow embedding, in Lean 4 over the reals, of the core of
the ARBO repository:

* `src/arbo_lib/core/amdahl.py`   — the Amdahl time model and the inverse
  inferences of the parallel fraction `p` and the scaling exponent `k`;
* `src/arbo_lib/db/store.py`      — the per-task state store (two tables:
  `task_models` keyed by task name, and the append-only `execution_history`),
  with its optimistic version check;
* `src/arbo_lib/core/estimator.py` — `predict` and `feedback`, the candidate
  search with the SLO filter and the `t·√s` cost, and the float sanitizer;
* `src/arbo_lib/airflow/optimizer.py` — `get_task_configs`.

Conventions of the embedding:

* Python floats are modelled as real numbers; `gamma ** k` is Mathlib's
  `Real.rpow` (written `gamma ^ k`), which agrees with the float power for
  positive bases.  The one function whose behaviour on the IEEE special
  values NaN/±inf matters (`_sanitize_float`) is additionally modelled on an
  extended type `EFloat` with IEEE comparison semantics.
* The Gaussian-process residual model (`residual.py`) is CPU-bound numeric
  code with no specified output; it enters `predict` only through the value
  of `ResidualModel.predict` on the history it was trained on.  It is
  therefore modelled as an oracle `gp : List HistoryRow → ℕ → ℝ` (the gamma
  and cluster-load arguments are fixed within one call and are absorbed into
  the oracle).  The untrained model returns zeros (residual.py line 53),
  which the oracle `gpZero` realises.
* Each SQL statement of `store.py` runs in a transaction that commits on
  clean exit and rolls back on failure, so a store operation is a pure
  function `Store → Except E Store`: an error value means the transaction
  rolled back and the store is unchanged.
-/

/-! ## Amdahl model: `src/arbo_lib/core/amdahl.py` -/

/-- `AmdahlUtils.calculate_theoretical_time` (amdahl.py lines 8–25):
`c_startup + gamma^k * ((1-p)*t_base + (p/s)*t_base)`, with `s` clamped to
`≥ 1` first. -/
noncomputable def calculate_theoretical_time (c_startup gamma t_base p s k : ℝ) : ℝ :=
  let s' := if s < 1 then 1 else s
  let scaling_factor := gamma ^ k
  let amdahl_part := (1 - p) * t_base + p / s' * t_base
  c_startup + scaling_factor * amdahl_part

/-- `AmdahlUtils.calculate_current_p` (amdahl.py lines 28–52): inverse
inference of `p` from one observation; `none` models Python's `None`. -/
noncomputable def calculate_current_p (s t_actual c_startup t_base gamma k : ℝ) : Option ℝ :=
  if s ≤ 1 ∨ t_base ≤ 0 then none
  else
    let pure_computation_time := max 0 (t_actual - c_startup)
    let expected_scale := gamma ^ k
    if expected_scale ≤ 0 then none
    else
      let normalized_time := pure_computation_time / (expected_scale * t_base)
      let p_calc := s / (s - 1) * (1 - normalized_time)
      some (max 0.01 (min 0.99 p_calc))

/-- `AmdahlUtils.calculate_current_k` (amdahl.py lines 55–85): inverse
inference of `k`.  `np.log` is `Real.log`; the dead `ZeroDivisionError`
handler is dropped (float division never raises it). -/
noncomputable def calculate_current_k (s t_actual c_startup t_base gamma p : ℝ) : Option ℝ :=
  if 0.99 ≤ gamma ∧ gamma ≤ 1.01 then none
  else
    let pure_time := max 1e-3 (t_actual - c_startup)
    let theoretical_base_at_s := (1 - p) * t_base + p / s * t_base
    if theoretical_base_at_s ≤ 0 then none
    else
      let ration := pure_time / theoretical_base_at_s
      if ration ≤ 0 then none
      else some (max 0.5 (min 3.0 (Real.log ration / Real.log gamma)))

/-- `AmdahlUtils.update_moving_average` (amdahl.py lines 88–99). -/
def update_moving_average (old_val : ℝ) (current_val : Option ℝ) (alpha : ℝ) : ℝ :=
  match current_val with
  | none => old_val
  | some c => alpha * old_val + (1 - alpha) * c

/-! ## Float sanitizer: `ArboEstimator._sanitize_float` (estimator.py 237–254)

The function is applied to Python floats, so its behaviour on the IEEE
special values matters.  `EFloat` is ℝ extended by NaN and the two
infinities; `EFloat.feq` / `EFloat.flt` are the IEEE comparisons (every
comparison with NaN is false), `EFloat.fabs` is `abs`.  The
`except ValueError` branch of the source is dead for float inputs
(`float(x)` does not raise on a float) and is not modelled. -/

inductive EFloat where
  | nan : EFloat
  | posInf : EFloat
  | negInf : EFloat
  | val : ℝ → EFloat

/-- IEEE `==` on `EFloat`: NaN compares unequal to everything. -/
def EFloat.feq : EFloat → EFloat → Prop
  | .val x, .val y => x = y
  | .posInf, .posInf => True
  | .negInf, .negInf => True
  | _, _ => False

/-- IEEE `<` on `EFloat`: NaN is incomparable. -/
def EFloat.flt : EFloat → EFloat → Prop
  | .val x, .val y => x < y
  | .val _, .posInf => True
  | .negInf, .val _ => True
  | .negInf, .posInf => True
  | _, _ => False

/-- IEEE `abs` on `EFloat`. -/
def EFloat.fabs : EFloat → EFloat
  | .nan => .nan
  | .posInf => .posInf
  | .negInf => .posInf
  | .val x => .val |x|

noncomputable instance : (a b : EFloat) → Decidable (EFloat.feq a b)
  | .nan, b => .isFalse (by cases b <;> exact fun h => h)
  | .posInf, .nan => .isFalse (fun h => h)
  | .posInf, .posInf => .isTrue trivial
  | .posInf, .negInf => .isFalse (fun h => h)
  | .posInf, .val _ => .isFalse (fun h => h)
  | .negInf, .nan => .isFalse (fun h => h)
  | .negInf, .posInf => .isFalse (fun h => h)
  | .negInf, .negInf => .isTrue trivial
  | .negInf, .val _ => .isFalse (fun h => h)
  | .val _, .nan => .isFalse (fun h => h)
  | .val _, .posInf => .isFalse (fun h => h)
  | .val _, .negInf => .isFalse (fun h => h)
  | .val x, .val y => inferInstanceAs (Decidable (x = y))

noncomputable instance : (a b : EFloat) → Decidable (EFloat.flt a b)
  | .nan, b => .isFalse (by cases b <;> exact fun h => h)
  | .posInf, .nan => .isFalse (fun h => h)
  | .posInf, .posInf => .isFalse (fun h => h)
  | .posInf, .negInf => .isFalse (fun h => h)
  | .posInf, .val _ => .isFalse (fun h => h)
  | .negInf, .nan => .isFalse (fun h => h)
  | .negInf, .posInf => .isTrue trivial
  | .negInf, .negInf => .isFalse (fun h => h)
  | .negInf, .val _ => .isTrue trivial
  | .val _, .nan => .isFalse (fun h => h)
  | .val _, .posInf => .isTrue trivial
  | .val _, .negInf => .isFalse (fun h => h)
  | .val x, .val y => inferInstanceAs (Decidable (x < y))

/-- `ArboEstimator._sanitize_float` on Python floats, with the source's
comparison chain carried out in IEEE semantics:
`if f_val == 0.0: return 0.0` / `if abs(f_val) < 1e-10: return 0.0` /
`if abs(f_val) > 1e10: return 1e10 if f_val > 0 else -1e10` / `return f_val`. -/
noncomputable def sanitize_float (x : EFloat) : EFloat :=
  if EFloat.feq x (.val 0) then .val 0
  else if EFloat.flt (EFloat.fabs x) (.val 1e-10) then .val 0
  else if EFloat.flt (.val 1e10) (EFloat.fabs x) then
    (if EFloat.flt (.val 0) x then .val 1e10 else .val (-1e10))
  else x

/-- `ArboEstimator._sanitize_float` restricted to finite (real) inputs; this
is the form the estimator applies to its real-valued predictions. -/
noncomputable def sanitize_float_real (x : ℝ) : ℝ :=
  if x = 0 then 0
  else if |x| < 1e-10 then 0
  else if 1e10 < |x| then (if 0 < x then 1e10 else -1e10)
  else x

/-- On finite values the two models of `_sanitize_float` agree. -/
theorem sanitize_float_val (x : ℝ) :
    sanitize_float (.val x) = .val (sanitize_float_real x) := by
  unfold sanitize_float sanitize_float_real
  simp only [EFloat.fabs, EFloat.feq, EFloat.flt]
  by_cases h0 : x = 0
  · simp [h0]
  · rw [if_neg h0, if_neg h0]
    by_cases h1 : |x| < 1e-10
    · simp [h1]
    · rw [if_neg h1, if_neg h1]
      by_cases h2 : (1e10 : ℝ) < |x|
      · rw [if_pos h2, if_pos h2]
        by_cases h3 : (0 : ℝ) < x
        · simp [h3]
        · simp [h3]
      · rw [if_neg h2, if_neg h2]

/-! ## State store: `src/arbo_lib/db/store.py`

The two tables.  `task_models` is a finite map from the primary key
`task_name`; `execution_history` is the append-only log, kept newest-first
(the SQL retrieval orders by `recorded_at DESC`, and each insert carries
`recorded_at = now()`, so prepending the new row keeps the retrieval
order).  `last_updated` and `recorded_at` are wall-clock timestamps with no
bearing on any claim and are not modelled. -/

/-- One row of `task_models` (store.py / schema in the spec). -/
structure TaskModel where
  t_base_1 : ℝ
  base_input_quantity : ℝ
  p_obs : ℝ
  k_exponent : ℝ
  c_startup : ℝ
  alpha_p : ℝ
  alpha_k : ℝ
  sample_count : ℕ

/-- One row of `execution_history`. -/
structure HistoryRow where
  task_name : String
  parallelism : ℤ
  input_scale_factor : ℝ
  cluster_load : ℝ
  total_duration : ℝ
  residual : ℝ
  cost_metric : ℝ
  p_snapshot : ℝ
  time_amdahl : ℝ
  pred_residual : ℝ

/-- The `run_data` dict built by `ArboEstimator._pack_run_data`
(estimator.py 257–286). `p_snapshot` is optional because `update_model`
reads it with `run_data.get("p_snapshot", new_p)` (store.py line 177). -/
structure RunData where
  task_name : String
  s : ℤ
  gamma : ℝ
  cluster_load : ℝ
  total_duration : ℝ
  residual : ℝ
  cost_metric : ℝ
  p_snapshot : Option ℝ
  time_amdahl : ℝ
  pred_residual : ℝ

@[ext]
structure Store where
  models : String → Option TaskModel
  history : List HistoryRow

def emptyStore : Store := ⟨fun _ => none, []⟩

/-- `TaskAlreadyExistsError` (exceptions.py). -/
inductive InitError where
  | alreadyExists : InitError

/-- `StaleDataError` / `TaskNotFoundError` (exceptions.py), the two errors
`ArboState.update_model` can raise. -/
inductive UpdateError where
  | stale : UpdateError
  | notFound : UpdateError

/-- `ArboState.initialize_task` (store.py 61–86): INSERT of a fresh row.
The SQL sets `k_exponent = 1.0` literally and leaves `sample_count` at its
schema default `0`; a duplicate primary key raises `TaskAlreadyExistsError`.
The Python defaults `p=1, c_startup=6, alpha_p=0.7, alpha_k=0.8` are passed
explicitly by every caller in this embedding. -/
def init_task (st : Store) (task_name : String) (t_base base_input_quantity p c_startup alpha_p alpha_k : ℝ) :
    Except InitError Store :=
  match st.models task_name with
  | some _ => .error .alreadyExists
  | none =>
    .ok ⟨fun n => if n = task_name then
            some ⟨t_base, base_input_quantity, p, 1.0, c_startup, alpha_p, alpha_k, 0⟩
          else st.models n,
         st.history⟩

/-- `ArboState.update_baseline` (store.py 88–97): an unversioned
`UPDATE task_models SET t_base_1 = %s WHERE task_name = %s`; zero matched
rows is not an error. -/
def update_baseline (st : Store) (task_name : String) (new_t_base : ℝ) : Store :=
  ⟨fun n => if n = task_name then
      (st.models n).map (fun m => { m with t_base_1 := new_t_base })
    else st.models n,
   st.history⟩

/-- `ArboState.get_task_model` (store.py 99–108). -/
def get_task_model (st : Store) (task_name : String) : Option TaskModel :=
  st.models task_name

/-- `ArboState.get_history` (store.py 111–122): the newest `limit` rows of
the task, newest first. -/
def get_history (st : Store) (task_name : String) (limit : ℕ) : List HistoryRow :=
  (st.history.filter (fun r => r.task_name = task_name)).take limit

/-- The history row inserted by `update_model` from `run_data`
(store.py 169–180). -/
def historyRowOf (new_p : ℝ) (run_data : RunData) : HistoryRow :=
  ⟨run_data.task_name, run_data.s, run_data.gamma, run_data.cluster_load,
   run_data.total_duration, run_data.residual, run_data.cost_metric,
   run_data.p_snapshot.getD new_p, run_data.time_amdahl, run_data.pred_residual⟩

/-- `ArboState.update_model` (store.py 124–180), one transaction:
the versioned `UPDATE ... WHERE task_name = %s AND sample_count = %s`
matches exactly when the row exists at `expected_version`, in which case it
writes `p_obs`, `k_exponent`, bumps `sample_count` and the history INSERT
appends one row; on zero matched rows the probe distinguishes `StaleDataError`
(row exists) from `TaskNotFoundError` (no row), and the transaction rolls
back, leaving the store unchanged (modelled by returning only the error). -/
def update_model (st : Store) (task_name : String) (new_p new_k : ℝ) (run_data : RunData)
    (expected_version : ℕ) : Except UpdateError Store :=
  match st.models task_name with
  | none => .error .notFound
  | some m =>
    if m.sample_count = expected_version then
      .ok ⟨fun n => if n = task_name then
              some { m with p_obs := new_p, k_exponent := new_k,
                            sample_count := m.sample_count + 1 }
            else st.models n,
           historyRowOf new_p run_data :: st.history⟩
    else .error .stale

/-! ## Estimator: `src/arbo_lib/core/estimator.py` -/

/-- `ArboEstimator._cost_function` (estimator.py 213–221): `t * s ** 0.5`. -/
noncomputable def cost_function (t s : ℝ) : ℝ := t * s ^ (0.5 : ℝ)

/-- `ArboEstimator._find_search_space` (estimator.py 223–235). -/
noncomputable def find_search_space (p : ℝ) : ℤ :=
  if 0.99 ≤ p then 50
  else max ⌈p / (1 - p)⌉ 15

/-- The candidate list `np.arange(1, ceil(max_s * 1.5) + 1)` = `[1, …, N]`
(estimator.py line 70). -/
def candidatesList (N : ℤ) : List ℕ :=
  (List.range N.toNat).map (· + 1)

/-- The per-task candidate set used in the LEARNING branch of `predict`. -/
noncomputable def predictCands (params : TaskModel) : List ℕ :=
  candidatesList ⌈(find_search_space params.p_obs : ℝ) * 1.5⌉

/-- The running state of the argmin loop of `predict` (estimator.py 64–68):
`best_score : Option ℝ` models the initial `float("inf")` as `none`. -/
structure SearchAcc where
  best_s : ℕ
  best_score : Option ℝ
  predicted_amdahl : ℝ
  predicted_residual : ℝ

/-- `cost < best_score`, where `none` is `float("inf")`. -/
def scoreLt (cost : ℝ) : Option ℝ → Prop
  | none => True
  | some b => cost < b

noncomputable instance : (cost : ℝ) → (o : Option ℝ) → Decidable (scoreLt cost o)
  | _, none => .isTrue trivial
  | cost, some b => inferInstanceAs (Decidable (cost < b))

/-- The SLO filter `if max_time_slo and t_total > max_time_slo: continue`
(estimator.py line 86): the Python truthiness test means a zero SLO
disables the filter. -/
def sloFiltered (max_time_slo : Option ℝ) (t_total : ℝ) : Prop :=
  match max_time_slo with
  | none => False
  | some limit => limit ≠ 0 ∧ limit < t_total

noncomputable instance : (slo : Option ℝ) → (t : ℝ) → Decidable (sloFiltered slo t)
  | none, _ => .isFalse (fun h => h)
  | some limit, t => inferInstanceAs (Decidable (limit ≠ 0 ∧ limit < t))

/-- One iteration of the candidate loop of `predict` (estimator.py 76–96). -/
noncomputable def searchStep (max_time_slo : Option ℝ) (theo residuals : ℕ → ℝ)
    (acc : SearchAcc) (s : ℕ) : SearchAcc :=
  let t_amdahl := theo s
  let t_total := t_amdahl + residuals s
  if sloFiltered max_time_slo t_total then acc
  else if scoreLt (cost_function t_total s) acc.best_score then
    ⟨s, some (cost_function t_total s),
     sanitize_float_real t_amdahl, sanitize_float_real (residuals s)⟩
  else acc

/-- The whole candidate loop, started from
`best_s = 1, best_score = inf, predicted_amdahl = 0, predicted_residual = 0`. -/
noncomputable def learningSearch (max_time_slo : Option ℝ) (theo residuals : ℕ → ℝ)
    (candidates_s : List ℕ) : SearchAcc :=
  candidates_s.foldl (searchStep max_time_slo theo residuals) ⟨1, none, 0, 0⟩

/-- The tuple `(best_s, gamma, predicted_amdahl, predicted_residual)`
returned by `ArboEstimator.predict`. -/
structure Prediction where
  s : ℕ
  gamma : ℝ
  predicted_amdahl : ℝ
  predicted_residual : ℝ

/-- A residual-model oracle: the value of `ResidualModel.predict` after
training on the given history (gamma and cluster load are fixed per call). -/
def ResidualOracle := List HistoryRow → ℕ → ℝ

/-- The untrained residual model: zero residual for every candidate
(residual.py lines 52–53). -/
def gpZero : ResidualOracle := fun _ _ => 0

/-- `gamma = input_quantity / base_input_quantity if base > 0 else 1.0`
(estimator.py line 39). -/
noncomputable def predictGammaOf (params : TaskModel) (input_quantity : ℝ) : ℝ :=
  if params.base_input_quantity > 0
  then input_quantity / params.base_input_quantity else 1.0

/-- The Amdahl time of a candidate `s` as computed inside the loop of
`predict` (estimator.py 78–81). -/
noncomputable def predictTheo (params : TaskModel) (input_quantity : ℝ) (s : ℕ) : ℝ :=
  calculate_theoretical_time params.c_startup (predictGammaOf params input_quantity)
    params.t_base_1 params.p_obs (s : ℝ) params.k_exponent

/-- `ArboEstimator.predict` (estimator.py 18–98).  The `.error` arm of the
cold-start branch is unreachable (`st.models task_name = none` there), and
mirrors the fact that the Python code would propagate the exception. -/
noncomputable def predict (st : Store) (task_name : String)
    (input_quantity cluster_load : ℝ) (max_time_slo : Option ℝ)
    (gp : ResidualOracle) : Store × Prediction :=
  match st.models task_name with
  | none =>
    match init_task st task_name 0 input_quantity 1 6 0.7 0.8 with
    | .ok st' => (st', ⟨1, 1.0, 0.0, 0.0⟩)
    | .error _ => (st, ⟨1, 1.0, 0.0, 0.0⟩)
  | some params =>
    let gamma := predictGammaOf params input_quantity
    if params.sample_count = 1 then
      let residuals := gp (get_history st task_name 10)
      let predicted_amdahl := calculate_theoretical_time params.c_startup gamma
        params.t_base_1 params.p_obs 5 params.k_exponent
      (st, ⟨5, gamma, predicted_amdahl, sanitize_float_real (residuals 5)⟩)
    else
      let residuals := gp (get_history st task_name 50)
      let acc := learningSearch max_time_slo (predictTheo params input_quantity)
        residuals (predictCands params)
      (st, ⟨acc.best_s, gamma, acc.predicted_amdahl, acc.predicted_residual⟩)

/-- `ArboEstimator._pack_run_data` (estimator.py 257–286). -/
def pack_run_data (task : String) (s : ℤ)
    (gamma cluster_load time residual cost : ℝ) (p_snapshot : Option ℝ)
    (predicted_amdahl predicted_residual : ℝ) : RunData :=
  ⟨task, s, gamma, cluster_load, time, residual, cost, p_snapshot,
   predicted_amdahl, predicted_residual⟩

/-- The outcome of one attempt of the `feedback` retry loop:
`success` is a clean return, `staleConflict` a caught `StaleDataError`,
`taskMissing` a caught `TaskNotFoundError` (estimator.py 119–208). -/
inductive AttemptOutcome where
  | success : AttemptOutcome
  | staleConflict : AttemptOutcome
  | taskMissing : AttemptOutcome

/-- The baseline ("cold start") branch of a `feedback` attempt
(estimator.py 126–143): `update_baseline` commits first in its own
transaction, then `update_model(new_p=1, new_k=1, expected_version=0)`.  The
`TaskAlreadyExistsError` handler of the source is dead code — this branch
never calls `initialize_task`. -/
noncomputable def feedbackBaseline (st : Store) (task_name : String) (s : ℤ)
    (gamma cluster_load t_actual predicted_amdahl predicted_residual : ℝ) :
    Store × AttemptOutcome :=
  let cost := cost_function t_actual (s : ℝ)
  let run_data := pack_run_data task_name s gamma cluster_load t_actual 0 cost
    (some 1.0) predicted_amdahl predicted_residual
  let st1 := update_baseline st task_name t_actual
  match update_model st1 task_name 1 1 run_data 0 with
  | .ok st2 => (st2, .success)
  | .error .stale => (st1, .staleConflict)
  | .error .notFound => (st1, .taskMissing)

/-- The learning branch of a `feedback` attempt (estimator.py 145–201). -/
noncomputable def feedbackLearning (st : Store) (params : TaskModel) (task_name : String)
    (s : ℤ) (gamma cluster_load t_actual predicted_amdahl predicted_residual : ℝ) :
    Store × AttemptOutcome :=
  let current_version := params.sample_count
  let current_k := params.k_exponent
  let p_current := calculate_current_p (s : ℝ) t_actual params.c_startup
    params.t_base_1 gamma current_k
  let new_p := update_moving_average params.p_obs p_current params.alpha_p
  let k_current := calculate_current_k (s : ℝ) t_actual params.c_startup
    params.t_base_1 gamma new_p
  let new_k := update_moving_average current_k k_current params.alpha_k
  let t_theory := calculate_theoretical_time params.c_startup gamma
    params.t_base_1 new_p (s : ℝ) new_k
  let residual := t_actual - t_theory
  let cost := cost_function t_actual (s : ℝ)
  let run_data := pack_run_data task_name s gamma cluster_load t_actual residual
    cost (some new_p) predicted_amdahl predicted_residual
  match update_model st task_name new_p new_k run_data current_version with
  | .ok st2 => (st2, .success)
  | .error .stale => (st, .staleConflict)
  | .error .notFound => (st, .taskMissing)

/-- One attempt of the `feedback` retry loop: the branch on
`if not params or params["sample_count"] == 0` (estimator.py 121–126). -/
noncomputable def feedbackAttempt (st : Store) (task_name : String) (s : ℤ)
    (gamma cluster_load t_actual predicted_amdahl predicted_residual : ℝ) :
    Store × AttemptOutcome :=
  match st.models task_name with
  | none => feedbackBaseline st task_name s gamma cluster_load t_actual
      predicted_amdahl predicted_residual
  | some params =>
    if params.sample_count = 0 then
      feedbackBaseline st task_name s gamma cluster_load t_actual
        predicted_amdahl predicted_residual
    else
      feedbackLearning st params task_name s gamma cluster_load t_actual
        predicted_amdahl predicted_residual

def consRetry (out : AttemptOutcome) (r : Store × List AttemptOutcome) :
    Store × List AttemptOutcome :=
  (r.1, out :: r.2)

/-- The retry loop of `feedback` (`for attempt in range(max_retries)`,
estimator.py 119–210): a successful attempt returns at once; a caught
`StaleDataError` or `TaskNotFoundError` is logged and the loop continues;
exhausted fuel is the final "Failed to update model … after 3 retries" log.
The returned list records the outcome of each attempt made. -/
noncomputable def feedbackLoop (task_name : String) (s : ℤ)
    (gamma cluster_load t_actual predicted_amdahl predicted_residual : ℝ) :
    ℕ → Store → Store × List AttemptOutcome
  | 0, st => (st, [])
  | n + 1, st =>
    match feedbackAttempt st task_name s gamma cluster_load t_actual
        predicted_amdahl predicted_residual with
    | (st', .success) => (st', [.success])
    | (st', .staleConflict) =>
      consRetry .staleConflict (feedbackLoop task_name s gamma cluster_load
        t_actual predicted_amdahl predicted_residual n st')
    | (st', .taskMissing) =>
      consRetry .taskMissing (feedbackLoop task_name s gamma cluster_load
        t_actual predicted_amdahl predicted_residual n st')

/-- `ArboEstimator.feedback` (estimator.py 101–210), `max_retries = 3`. -/
noncomputable def feedback (st : Store) (task_name : String) (s : ℤ)
    (gamma cluster_load t_actual predicted_amdahl predicted_residual : ℝ) :
    Store × List AttemptOutcome :=
  feedbackLoop task_name s gamma cluster_load t_actual predicted_amdahl
    predicted_residual 3 st

/-! ## Public API: `ArboOptimizer.get_task_configs` (optimizer.py 35–68) -/

/-- One element of the config list built for Airflow dynamic task mapping. -/
structure WorkerConfig where
  chunk_id : ℕ
  total_chunks : ℕ
  gamma : ℝ
  task_name : String
  amdahl_time : ℝ
  residual_prediction : ℝ

/-- `ArboOptimizer.get_task_configs`: one call to `predict`, then one config
dict per worker `i in range(s_opt)`. -/
noncomputable def get_task_configs (st : Store) (task_name : String)
    (input_quantity cluster_load : ℝ) (max_time_slo : Option ℝ)
    (gp : ResidualOracle) : Store × List WorkerConfig :=
  let r := predict st task_name input_quantity cluster_load max_time_slo gp
  (r.1, (List.range r.2.s).map (fun i =>
    ⟨i, r.2.s, r.2.gamma, task_name, r.2.predicted_amdahl, r.2.predicted_residual⟩))

/-! ## Reachable stores

The states of the store that the system itself can produce: starting from
an empty database and applying the two public estimator operations. -/

inductive Reach : Store → Prop where
  | empty : Reach emptyStore
  | predictStep (st : Store) (task_name : String) (input_quantity cluster_load : ℝ)
      (max_time_slo : Option ℝ) (gp : ResidualOracle) :
      Reach st →
      Reach (predict st task_name input_quantity cluster_load max_time_slo gp).1
  | feedbackStep (st : Store) (task_name : String) (s : ℤ)
      (gamma cluster_load t_actual predicted_amdahl predicted_residual : ℝ) :
      Reach st →
      Reach (feedback st task_name s gamma cluster_load t_actual
        predicted_amdahl predicted_residual).1

/-! ## Claim C2: Amdahl p roundtrip -/

/-- C2: for every `s ≥ 2`, `γ > 0`, `0.01 < p < 0.99`, every `k`,
`t_base > 0` and `c_startup ≥ 0`, with
`t = calculate_theoretical_time(c_startup, γ, t_base, p, s, k)`, the inverse
`calculate_current_p(s, t, c_startup, t_base, γ, k)` is defined and equals
`p` within `10⁻⁶` (in fact exactly). -/
theorem C2_amdahl_p_roundtrip (s gamma p k t_base c_startup : ℝ)
    (hs : 2 ≤ s) (hγ : 0 < gamma) (hp1 : 0.01 < p) (hp2 : p < 0.99)
    (ht : 0 < t_base) (hc : 0 ≤ c_startup) :
    ∃ p', calculate_current_p s
        (calculate_theoretical_time c_startup gamma t_base p s k)
        c_startup t_base gamma k = some p' ∧ |p' - p| ≤ 1e-6 := by
  have hp0 : 0 < p := by linarith
  have hs0 : 0 < s := by linarith
  have hs1 : ¬ s < 1 := by linarith
  have hrp : 0 < gamma ^ k := Real.rpow_pos_of_pos hγ k
  have hB : 0 < (1 - p) * t_base + p / s * t_base := by
    have h1 : 0 < (1 - p) * t_base := by nlinarith
    have h2 : 0 < p / s * t_base := by positivity
    linarith
  have hguard : ¬ (s ≤ 1 ∨ t_base ≤ 0) := by push_neg; constructor <;> linarith
  simp only [calculate_theoretical_time, calculate_current_p, if_neg hs1,
    if_neg hguard, if_neg (not_le.mpr hrp)]
  refine ⟨p, ?_, by norm_num⟩
  have hmax : max 0 (c_startup + gamma ^ k * ((1 - p) * t_base + p / s * t_base)
      - c_startup) = gamma ^ k * ((1 - p) * t_base + p / s * t_base) := by
    rw [add_sub_cancel_left]
    exact max_eq_right (le_of_lt (mul_pos hrp hB))
  rw [hmax]
  have hcalc : s / (s - 1) *
      (1 - gamma ^ k * ((1 - p) * t_base + p / s * t_base) / (gamma ^ k * t_base)) = p := by
    have hsne : s ≠ 0 := ne_of_gt hs0
    have hs1ne : s - 1 ≠ 0 := by intro h; nlinarith [h]
    have htne : t_base ≠ 0 := ne_of_gt ht
    have hgne : gamma ^ k ≠ 0 := ne_of_gt hrp
    field_simp
    ring
  rw [hcalc, min_eq_right (le_of_lt hp2), max_eq_right (le_of_lt hp1)]

theorem C2_witness :
    ∃ p', calculate_current_p 2 (calculate_theoretical_time 0 1 1 (1/2) 2 0)
      0 1 1 0 = some p' ∧ |p' - (1/2 : ℝ)| ≤ 1e-6 :=
  C2_amdahl_p_roundtrip 2 1 (1/2) 0 1 0 (by norm_num) (by norm_num)
    (by norm_num) (by norm_num) (by norm_num) (by norm_num)

/-! ## Claim C8: k roundtrip (corrected)

As stated the claim fails: `calculate_current_k` floors the numerator at
`pure = max(1e-3, t_actual - c_startup)` (amdahl.py line 69), so when the
scaled base time `γ^k·((1-p)·t_base + (p/s)·t_base)` is below `10⁻³` the
recovered exponent is wrong.  `C8_counterexample` exhibits this with
`t_base = 10⁻⁹`.  With the extra hypothesis `t - c_startup ≥ 10⁻³` (and
`γ > 0`, the domain on which the float power and log are real-valued), the
roundtrip is exact. -/

/-- C8 (counterexample): at `s=1, γ=2, p=1/2, k=1, t_base=10⁻⁹, c_startup=0`
all the claim's hypotheses hold (`|γ-1| > 0.01`, valid `p`, `k ∈ [0.5,3]`,
`s ≥ 1`, `t_base > 0`), yet the inverse inference returns `3`, not `≈ 1`. -/
theorem C8_counterexample :
    calculate_current_k 1 (calculate_theoretical_time 0 2 1e-9 (1/2) 1 1)
      0 1e-9 2 (1/2) = some 3 ∧ ¬ |(3 : ℝ) - 1| ≤ 1e-6 := by
  constructor
  · have ht : calculate_theoretical_time 0 2 1e-9 (1/2) 1 1 = 2e-9 := by
      simp only [calculate_theoretical_time]
      norm_num [Real.rpow_one]
    rw [ht]
    simp only [calculate_current_k]
    rw [if_neg (by norm_num : ¬ ((0.99:ℝ) ≤ 2 ∧ (2:ℝ) ≤ 1.01))]
    have hbase : (1 - (1/2 : ℝ)) * 1e-9 + (1/2 : ℝ) / 1 * 1e-9 = 1e-9 := by norm_num
    rw [hbase]
    rw [if_neg (by norm_num : ¬ ((1e-9 : ℝ) ≤ 0))]
    have hmax : max (1e-3 : ℝ) (2e-9 - 0) = 1e-3 := max_eq_left (by norm_num)
    rw [hmax]
    have hration : (1e-3 : ℝ) / 1e-9 = 1e6 := by norm_num
    rw [hration]
    rw [if_neg (by norm_num : ¬ ((1e6 : ℝ) ≤ 0))]
    have hlog2 : 0 < Real.log 2 := Real.log_pos (by norm_num)
    have h3le : (3 : ℝ) ≤ Real.log 1e6 / Real.log 2 := by
      rw [le_div_iff₀ hlog2]
      have h8 : Real.log 8 = 3 * Real.log 2 := by
        have h23 : (8 : ℝ) = 2 ^ (3 : ℕ) := by norm_num
        rw [h23, Real.log_pow]
        push_cast
        ring
      calc (3 : ℝ) * Real.log 2 = Real.log 8 := h8.symm
        _ ≤ Real.log 1e6 := Real.log_le_log (by norm_num) (by norm_num)
    have h30 : (3.0 : ℝ) = 3 := by norm_num
    rw [h30, min_eq_left h3le, max_eq_right (by norm_num : (0.5 : ℝ) ≤ 3)]
  · norm_num

/-- C8 (amended): for every `γ > 0` with `|γ − 1| > 0.01`, every
`p ∈ (0.01, 0.99)`, `k ∈ [0.5, 3.0]`, `s ≥ 1`, `t_base > 0`,
`c_startup ≥ 0`, **provided `t − c_startup ≥ 10⁻³`** (so the `max(1e-3, ·)`
floor in the source does not engage), the inverse
`calculate_current_k(s, t, c_startup, t_base, γ, p)` returns exactly `k`. -/
theorem C8_amended_k_roundtrip (s gamma p k t_base c_startup : ℝ)
    (hγ0 : 0 < gamma) (hγ : gamma < 0.99 ∨ 1.01 < gamma)
    (hp1 : 0.01 < p) (hp2 : p < 0.99) (hk1 : 0.5 ≤ k) (hk2 : k ≤ 3.0)
    (hs : 1 ≤ s) (ht : 0 < t_base) (hc : 0 ≤ c_startup)
    (hfloor : 1e-3 ≤ calculate_theoretical_time c_startup gamma t_base p s k
      - c_startup) :
    calculate_current_k s (calculate_theoretical_time c_startup gamma t_base p s k)
      c_startup t_base gamma p = some k := by
  have hs1 : ¬ s < 1 := not_lt.mpr hs
  have hs0 : 0 < s := by linarith
  have hp0 : 0 < p := by linarith
  have hTT : calculate_theoretical_time c_startup gamma t_base p s k
      = c_startup + gamma ^ k * ((1 - p) * t_base + p / s * t_base) := by
    simp only [calculate_theoretical_time, if_neg hs1]
  rw [hTT] at hfloor ⊢
  rw [add_sub_cancel_left] at hfloor
  have hB : 0 < (1 - p) * t_base + p / s * t_base := by
    have h1 : 0 < (1 - p) * t_base := by nlinarith
    have h2 : 0 < p / s * t_base := by positivity
    linarith
  have hrp : 0 < gamma ^ k := Real.rpow_pos_of_pos hγ0 k
  have hguard : ¬ ((0.99 : ℝ) ≤ gamma ∧ gamma ≤ 1.01) := by
    rcases hγ with h | h
    · exact fun hand => absurd hand.1 (by linarith)
    · exact fun hand => absurd hand.2 (by linarith)
  simp only [calculate_current_k, if_neg hguard]
  rw [add_sub_cancel_left]
  rw [max_eq_right hfloor]  -- placeholder, fixed below if direction wrong
  rw [if_neg (not_le.mpr hB)]
  have hBne : (1 - p) * t_base + p / s * t_base ≠ 0 := ne_of_gt hB
  rw [mul_div_assoc, div_self hBne, mul_one]
  rw [if_neg (not_le.mpr hrp)]
  have hlogne : Real.log gamma ≠ 0 := by
    intro h
    rcases Real.log_eq_zero.mp h with h0 | h1 | hm1
    · exact absurd h0 (ne_of_gt hγ0)
    · rcases hγ with hlt | hgt
      · rw [h1] at hlt; norm_num at hlt
      · rw [h1] at hgt; norm_num at hgt
    · rw [hm1] at hγ0; norm_num at hγ0
  rw [Real.log_rpow hγ0, mul_div_assoc, div_self hlogne, mul_one]
  rw [min_eq_right hk2, max_eq_right hk1]

theorem C8_witness :
    calculate_current_k 2 (calculate_theoretical_time 0 2 1 (1/2) 2 1)
      0 1 2 (1/2) = some 1 :=
  C8_amended_k_roundtrip 2 2 (1/2) 1 1 0 (by norm_num) (Or.inr (by norm_num))
    (by norm_num) (by norm_num) (by norm_num) (by norm_num) (by norm_num)
    (by norm_num) (by norm_num)
    (by simp only [calculate_theoretical_time]
        norm_num [Real.rpow_one])

/-! ## Claim C1: `update_model` is version-checked -/

/-- C1: for every task and expected_version, `update_model` either (row
present at the expected version) writes `p_obs`/`k_exponent`, bumps
`sample_count` by exactly 1 and prepends exactly one history row, or fails
with `Stale` (row present at another version) or `NotFound` (row absent);
the error cases roll the transaction back, leaving both tables unchanged
(the `Except.error` result carries no successor store). -/
theorem C1_update_model_versioned (st : Store) (task_name : String)
    (new_p new_k : ℝ) (run_data : RunData) (expected_version : ℕ) :
    (∀ m, st.models task_name = some m → m.sample_count = expected_version →
      update_model st task_name new_p new_k run_data expected_version =
        .ok ⟨fun n => if n = task_name then
                some { m with p_obs := new_p, k_exponent := new_k,
                              sample_count := m.sample_count + 1 }
              else st.models n,
             historyRowOf new_p run_data :: st.history⟩)
    ∧ (∀ m, st.models task_name = some m → m.sample_count ≠ expected_version →
      update_model st task_name new_p new_k run_data expected_version =
        .error .stale)
    ∧ (st.models task_name = none →
      update_model st task_name new_p new_k run_data expected_version =
        .error .notFound) := by
  refine ⟨fun m hm hv => ?_, fun m hm hv => ?_, fun hm => ?_⟩
  · simp only [update_model, hm, if_pos hv]
  · simp only [update_model, hm, if_neg hv]
  · simp only [update_model, hm]

/-- A concrete learning-state task row (`sample_count = 2`), used by several
witnesses below. -/
noncomputable def mA : TaskModel := ⟨100, 1, 1/2, 1, 6, 0.7, 0.8, 2⟩

/-- A store holding only task `"A"` at `mA`, with empty history. -/
noncomputable def stA : Store := ⟨fun n => if n = "A" then some mA else none, []⟩

/-- A concrete `run_data` record (values from `tests/db/test_store.py`). -/
noncomputable def rdA : RunData := ⟨"A", 4, 1.2, 12, 110, 10, 100, some 0.8, 0, 0⟩

theorem C1_witness :
    update_model stA "A" (2/5) 1 rdA 2 =
      .ok ⟨fun n => if n = "A" then
              some { mA with p_obs := 2/5, k_exponent := 1,
                             sample_count := mA.sample_count + 1 }
            else stA.models n,
           historyRowOf (2/5) rdA :: stA.history⟩ :=
  (C1_update_model_versioned stA "A" (2/5) 1 rdA 2).1 mA (by simp [stA]) rfl

/-! ## Claim C6: the float sanitizer (corrected)

Under IEEE comparison semantics every comparison with NaN is false, so the
source returns NaN unchanged; and `abs(±inf) > 1e10` is true, so the
infinities saturate to `±1e10` rather than collapsing to `0`.  The claim's
finite cases are as stated. -/

theorem EFloat.feq_nan_left (b : EFloat) : EFloat.feq .nan b = False := by
  cases b <;> rfl

theorem EFloat.feq_posInf_val (y : ℝ) : EFloat.feq .posInf (.val y) = False := rfl

theorem EFloat.feq_negInf_val (y : ℝ) : EFloat.feq .negInf (.val y) = False := rfl

theorem EFloat.feq_val_val (x y : ℝ) : EFloat.feq (.val x) (.val y) = (x = y) := rfl

theorem EFloat.flt_nan_left (b : EFloat) : EFloat.flt .nan b = False := by
  cases b <;> rfl

theorem EFloat.flt_posInf_left (b : EFloat) : EFloat.flt .posInf b = False := by
  cases b <;> rfl

theorem EFloat.flt_val_posInf (x : ℝ) : EFloat.flt (.val x) .posInf = True := rfl

theorem EFloat.flt_val_val (x y : ℝ) : EFloat.flt (.val x) (.val y) = (x < y) := rfl

theorem EFloat.flt_negInf_val (x : ℝ) : EFloat.flt .negInf (.val x) = True := rfl

theorem EFloat.flt_val_nan (x : ℝ) : EFloat.flt (.val x) .nan = False := rfl

theorem EFloat.flt_val_negInf (x : ℝ) : EFloat.flt (.val x) .negInf = False := rfl

/-- C6 (counterexample): `_sanitize_float(+inf)` is `1e10`, not `0` as the
claim states for the infinities. -/
theorem C6_counterexample :
    sanitize_float .posInf = .val 1e10 ∧ sanitize_float .posInf ≠ .val 0 := by
  have h : sanitize_float .posInf = .val 1e10 := by
    simp [sanitize_float, EFloat.fabs, EFloat.feq_posInf_val,
      EFloat.flt_posInf_left, EFloat.flt_val_posInf]
  refine ⟨h, ?_⟩
  rw [h]
  intro heq
  have : (1e10 : ℝ) = 0 := by injection heq
  norm_num at this

/-- C6 (amended): the sanitizer maps NaN to NaN (every IEEE comparison with
NaN is false, so the final `return f_val` fires), `+inf` to `10¹⁰` and
`-inf` to `−10¹⁰` (sign-preserving saturation), every finite `x` with
`|x| < 10⁻¹⁰` to `0`, every finite `x` with `|x| > 10¹⁰` to `±10¹⁰`
preserving sign, and every other finite `x` to itself. -/
theorem C6_amended_sanitize :
    sanitize_float .nan = .nan
    ∧ sanitize_float .posInf = .val 1e10
    ∧ sanitize_float .negInf = .val (-1e10)
    ∧ (∀ x : ℝ, |x| < 1e-10 → sanitize_float (.val x) = .val 0)
    ∧ (∀ x : ℝ, 1e10 < |x| →
        sanitize_float (.val x) = .val (if 0 < x then 1e10 else -1e10))
    ∧ (∀ x : ℝ, 1e-10 ≤ |x| → |x| ≤ 1e10 → sanitize_float (.val x) = .val x) := by
  refine ⟨?_, ?_, ?_, fun x hx => ?_, fun x hx => ?_, fun x hx1 hx2 => ?_⟩
  · simp [sanitize_float, EFloat.fabs, EFloat.feq_nan_left, EFloat.flt_nan_left,
      EFloat.flt_val_nan]
  · simp [sanitize_float, EFloat.fabs, EFloat.feq_posInf_val,
      EFloat.flt_posInf_left, EFloat.flt_val_posInf]
  · simp [sanitize_float, EFloat.fabs, EFloat.feq_negInf_val,
      EFloat.flt_posInf_left, EFloat.flt_val_posInf, EFloat.flt_val_negInf]
  · rcases eq_or_ne x 0 with h0 | h0
    · simp [sanitize_float, EFloat.feq_val_val, h0]
    · simp [sanitize_float, EFloat.feq_val_val, EFloat.fabs,
        EFloat.flt_val_val, h0, hx]
  · have h0 : x ≠ 0 := by
      intro h; rw [h] at hx; simp at hx; norm_num at hx
    have hnlt : ¬ |x| < 1e-10 := by
      intro h; nlinarith [hx, h]
    simp only [sanitize_float, EFloat.feq_val_val, EFloat.fabs,
      EFloat.flt_val_val, if_neg h0, if_neg hnlt, if_pos hx]
    by_cases hpos : 0 < x
    · simp [EFloat.flt_val_val, hpos]
    · simp [EFloat.flt_val_val, hpos]
  · have h0 : x ≠ 0 := by
      intro h; rw [h] at hx1; simp at hx1; norm_num at hx1
    have hnlt : ¬ |x| < 1e-10 := not_lt.mpr hx1
    have hngt : ¬ (1e10 : ℝ) < |x| := not_lt.mpr hx2
    simp only [sanitize_float, EFloat.feq_val_val, EFloat.fabs,
      EFloat.flt_val_val, if_neg h0, if_neg hnlt, if_neg hngt]

theorem C6_witness :
    sanitize_float (.val 1) = .val 1 ∧ sanitize_float .nan = .nan :=
  ⟨C6_amended_sanitize.2.2.2.2.2 1 (by rw [abs_one]; norm_num)
      (by rw [abs_one]; norm_num),
   C6_amended_sanitize.1⟩

/-! ## feedback on an absent task (claims C7, C9) -/

theorem update_baseline_missing (st : Store) (task_name : String) (v : ℝ)
    (h : st.models task_name = none) : update_baseline st task_name v = st := by
  apply Store.ext
  · funext n
    simp only [update_baseline]
    by_cases hn : n = task_name
    · subst hn; rw [if_pos rfl, h]; rfl
    · rw [if_neg hn]
  · rfl

theorem feedbackAttempt_missing (st : Store) (task_name : String) (s : ℤ)
    (gamma cluster_load t_actual pa pr : ℝ) (h : st.models task_name = none) :
    feedbackAttempt st task_name s gamma cluster_load t_actual pa pr =
      (st, .taskMissing) := by
  simp only [feedbackAttempt, h, feedbackBaseline,
    update_baseline_missing st task_name t_actual h]
  simp only [update_model, h]

theorem feedbackLoop_missing (st : Store) (task_name : String) (s : ℤ)
    (gamma cluster_load t_actual pa pr : ℝ) (h : st.models task_name = none) :
    ∀ n, feedbackLoop task_name s gamma cluster_load t_actual pa pr n st =
      (st, List.replicate n .taskMissing) := by
  intro n
  induction n with
  | zero => rfl
  | succ n ih =>
    simp only [feedbackLoop,
      feedbackAttempt_missing st task_name s gamma cluster_load t_actual pa pr h,
      consRetry, ih, List.replicate]

/-! ## Claim C9: feedback on a task never seen by predict writes nothing -/

/-- C9: when there is no `task_models` row for the task, a `feedback` call
leaves the store exactly as it was — `update_baseline` matches zero rows and
`update_model(expected_version=0)` fails with NotFound on every attempt, so
no task row is created and no history row is inserted. -/
theorem C9_feedback_missing_task_no_write (st : Store) (task_name : String)
    (s : ℤ) (gamma cluster_load t_actual predicted_amdahl predicted_residual : ℝ)
    (h : st.models task_name = none) :
    (feedback st task_name s gamma cluster_load t_actual predicted_amdahl
      predicted_residual).1 = st := by
  unfold feedback
  rw [feedbackLoop_missing st task_name s gamma cluster_load t_actual
    predicted_amdahl predicted_residual h 3]

theorem C9_witness :
    (feedback stA "B" 1 1 0 100 0 0).1 = stA :=
  C9_feedback_missing_task_no_write stA "B" 1 1 0 100 0 0 (by simp [stA])

/-! ## Claim C7: NotFound during feedback (corrected)

The source does `except TaskNotFoundError: logger.error(...); continue`
(estimator.py 206–208): the error is logged but the retry loop CONTINUES;
only after all three attempts does the call give up.  The claim's "aborts
immediately without performing further retry attempts" is therefore false;
what does hold is that no attempt writes to the store. -/

/-- C7 (counterexample): a feedback call on an absent task hits NotFound on
its first attempt and still performs two further attempts (three outcomes
are recorded, not one). -/
theorem C7_counterexample :
    (feedback emptyStore "orphan" 1 1 0 100 0 0).2 =
      [.taskMissing, .taskMissing, .taskMissing] ∧
    ((feedback emptyStore "orphan" 1 1 0 100 0 0).2.length ≤ 1 → False) := by
  have h : feedback emptyStore "orphan" 1 1 0 100 0 0 =
      (emptyStore, List.replicate 3 .taskMissing) := by
    unfold feedback
    exact feedbackLoop_missing emptyStore "orphan" 1 1 0 100 0 0 rfl 3
  rw [h]
  exact ⟨rfl, by simp⟩

/-- C7 (amended): a NotFound from `update_model` is logged and the retry
loop continues; with the task row absent the call makes all three attempts,
each ending in NotFound, and performs no store write in any of them. -/
theorem C7_amended_notfound_continues (st : Store) (task_name : String)
    (s : ℤ) (gamma cluster_load t_actual predicted_amdahl predicted_residual : ℝ)
    (h : st.models task_name = none) :
    feedback st task_name s gamma cluster_load t_actual predicted_amdahl
      predicted_residual =
      (st, [.taskMissing, .taskMissing, .taskMissing]) := by
  unfold feedback
  rw [feedbackLoop_missing st task_name s gamma cluster_load t_actual
    predicted_amdahl predicted_residual h 3]
  rfl

theorem C7_witness :
    feedback stA "C" 2 1 0 50 0 0 = (stA, [.taskMissing, .taskMissing, .taskMissing]) :=
  C7_amended_notfound_continues stA "C" 2 1 0 50 0 0 (by simp [stA])

/-! ## Claim C3: predict follows the per-task state machine -/

/-- C3: with no stored row, `predict` creates the row
(`t_base_1 = 0`, `sample_count = 0`, baseline input = the call's input,
`p = 1`, `k = 1`, `c_startup = 6`, `α_p = 0.7`, `α_k = 0.8`) and returns
exactly `(s=1, γ=1.0, 0.0, 0.0)`; with `sample_count = 1` it returns `s = 5`;
with `sample_count ≥ 2` it leaves the store unchanged and returns the
argmin of the candidate search together with `γ` and the predicted
decomposition at that argmin. -/
theorem C3_predict_state_machine (st : Store) (task_name : String)
    (input_quantity cluster_load : ℝ) (max_time_slo : Option ℝ)
    (gp : ResidualOracle) :
    (st.models task_name = none →
      predict st task_name input_quantity cluster_load max_time_slo gp =
        (⟨fun n => if n = task_name then
              some ⟨0, input_quantity, 1, 1.0, 6, 0.7, 0.8, 0⟩
            else st.models n, st.history⟩,
         ⟨1, 1.0, 0.0, 0.0⟩))
    ∧ (∀ params, st.models task_name = some params → params.sample_count = 1 →
        (predict st task_name input_quantity cluster_load max_time_slo gp).2.s = 5)
    ∧ (∀ params, st.models task_name = some params → 2 ≤ params.sample_count →
        ∃ acc, acc = learningSearch max_time_slo (predictTheo params input_quantity)
            (gp (get_history st task_name 50)) (predictCands params) ∧
          predict st task_name input_quantity cluster_load max_time_slo gp =
            (st, ⟨acc.best_s, predictGammaOf params input_quantity,
              acc.predicted_amdahl, acc.predicted_residual⟩)) := by
  refine ⟨fun h => ?_, fun params hm h1 => ?_, fun params hm h2 => ?_⟩
  · simp only [predict, h, init_task]
  · simp only [predict, hm, if_pos h1]
  · have h1 : ¬ params.sample_count = 1 := by omega
    simp only [predict, hm, if_neg h1]
    exact ⟨_, rfl, rfl⟩

theorem C3_witness :
    predict emptyStore "A" 5 0 none gpZero =
      (⟨fun n => if n = "A" then some ⟨0, 5, 1, 1.0, 6, 0.7, 0.8, 0⟩
          else emptyStore.models n, emptyStore.history⟩,
       ⟨1, 1.0, 0.0, 0.0⟩) :=
  (C3_predict_state_machine emptyStore "A" 5 0 none gpZero).1 rfl

/-! ## The candidate-search loop invariant (claims C4, C10) -/

/-- Invariant of the argmin loop after processing the candidates `l`:
either every candidate so far was filtered out by the SLO and the
accumulator is still the initial `⟨1, inf, 0, 0⟩`, or the accumulator holds
a surviving candidate of minimal cost (first minimum in iteration order),
its score, and the sanitized decomposition at it. -/
def SearchInv (slo : Option ℝ) (theo residuals : ℕ → ℝ) (l : List ℕ)
    (acc : SearchAcc) : Prop :=
  ((∀ x ∈ l, sloFiltered slo (theo x + residuals x)) ∧ acc = ⟨1, none, 0, 0⟩)
  ∨ (acc.best_s ∈ l
     ∧ ¬ sloFiltered slo (theo acc.best_s + residuals acc.best_s)
     ∧ acc.best_score = some (cost_function (theo acc.best_s + residuals acc.best_s) acc.best_s)
     ∧ acc.predicted_amdahl = sanitize_float_real (theo acc.best_s)
     ∧ acc.predicted_residual = sanitize_float_real (residuals acc.best_s)
     ∧ ∀ x ∈ l, ¬ sloFiltered slo (theo x + residuals x) →
         cost_function (theo acc.best_s + residuals acc.best_s) acc.best_s
           ≤ cost_function (theo x + residuals x) x
         ∧ (cost_function (theo x + residuals x) x
             = cost_function (theo acc.best_s + residuals acc.best_s) acc.best_s
            → acc.best_s ≤ x))

theorem searchStep_inv (slo : Option ℝ) (theo residuals : ℕ → ℝ)
    (pre : List ℕ) (acc : SearchAcc) (a : ℕ)
    (hord : ∀ x ∈ pre, x < a)
    (hinv : SearchInv slo theo residuals pre acc) :
    SearchInv slo theo residuals (pre ++ [a])
      (searchStep slo theo residuals acc a) := by
  unfold searchStep
  by_cases hf : sloFiltered slo (theo a + residuals a)
  · rw [if_pos hf]
    rcases hinv with ⟨hall, hacc⟩ | ⟨hmem, hnf, hscore, hpa, hpr, hmin⟩
    · left
      refine ⟨fun x hx => ?_, hacc⟩
      rcases List.mem_append.mp hx with hx | hx
      · exact hall x hx
      · rw [List.mem_singleton] at hx; subst hx; exact hf
    · right
      refine ⟨List.mem_append_left _ hmem, hnf, hscore, hpa, hpr, fun x hx hxf => ?_⟩
      rcases List.mem_append.mp hx with hx | hx
      · exact hmin x hx hxf
      · rw [List.mem_singleton] at hx; subst hx; exact absurd hf hxf
  · rw [if_neg hf]
    rcases hinv with ⟨hall, hacc⟩ | ⟨hmem, hnf, hscore, hpa, hpr, hmin⟩
    · subst hacc
      rw [if_pos (by trivial : scoreLt (cost_function (theo a + residuals a) a) none)]
      right
      refine ⟨List.mem_append_right _ (List.mem_singleton_self a), hf, rfl, rfl, rfl,
        fun x hx hxf => ?_⟩
      rcases List.mem_append.mp hx with hx | hx
      · exact absurd (hall x hx) hxf
      · rw [List.mem_singleton] at hx; subst hx
        exact ⟨le_refl _, fun _ => le_refl _⟩
    · rw [hscore]
      by_cases hlt : scoreLt (cost_function (theo a + residuals a) a)
          (some (cost_function (theo acc.best_s + residuals acc.best_s) acc.best_s))
      · rw [if_pos hlt]
        have hlt' : cost_function (theo a + residuals a) a
            < cost_function (theo acc.best_s + residuals acc.best_s) acc.best_s := hlt
        right
        dsimp only
        refine ⟨List.mem_append_right _ (List.mem_singleton_self a), hf, rfl, rfl, rfl,
          fun x hx hxf => ?_⟩
        rcases List.mem_append.mp hx with hx | hx
        · have hx' := hmin x hx hxf
          constructor
          · exact le_of_lt (lt_of_lt_of_le hlt' hx'.1)
          · intro heq
            exfalso
            have : cost_function (theo x + residuals x) x
                < cost_function (theo x + residuals x) x :=
              lt_of_lt_of_le (lt_of_le_of_lt (le_of_eq heq) hlt') hx'.1
            exact lt_irrefl _ this
        · rw [List.mem_singleton] at hx; subst hx
          exact ⟨le_refl _, fun _ => le_refl _⟩
      · rw [if_neg hlt]
        have hle : cost_function (theo acc.best_s + residuals acc.best_s) acc.best_s
            ≤ cost_function (theo a + residuals a) a := not_lt.mp hlt
        right
        refine ⟨List.mem_append_left _ hmem, hnf, hscore, hpa, hpr,
          fun x hx hxf => ?_⟩
        rcases List.mem_append.mp hx with hx | hx
        · exact hmin x hx hxf
        · rw [List.mem_singleton] at hx; subst hx
          exact ⟨hle, fun _ => le_of_lt (hord _ hmem)⟩

theorem learnFold_inv (slo : Option ℝ) (theo residuals : ℕ → ℝ) :
    ∀ (l pre : List ℕ) (acc : SearchAcc),
      (∀ x ∈ pre, ∀ y ∈ l, x < y) → List.Pairwise (· < ·) l →
      SearchInv slo theo residuals pre acc →
      SearchInv slo theo residuals (pre ++ l)
        (l.foldl (searchStep slo theo residuals) acc) := by
  intro l
  induction l with
  | nil => intro pre acc _ _ h; simpa using h
  | cons a l ih =>
    intro pre acc hord hpw hinv
    rw [List.foldl_cons]
    have hstep := searchStep_inv slo theo residuals pre acc a
      (fun x hx => hord x hx a (List.mem_cons_self a l)) hinv
    have hord' : ∀ x ∈ pre ++ [a], ∀ y ∈ l, x < y := by
      intro x hx y hy
      rcases List.mem_append.mp hx with hx | hx
      · exact hord x hx y (List.mem_cons_of_mem a hy)
      · rw [List.mem_singleton] at hx; subst hx
        exact (List.pairwise_cons.mp hpw).1 y hy
    have h := ih (pre ++ [a]) _ hord' (List.pairwise_cons.mp hpw).2 hstep
    rw [List.append_assoc, List.singleton_append] at h
    exact h

theorem candidatesList_pairwise (N : ℤ) :
    List.Pairwise (· < ·) (candidatesList N) := by
  unfold candidatesList
  exact List.Pairwise.map _ (fun a b h => Nat.add_lt_add_right h 1)
    (List.pairwise_lt_range _)

theorem mem_candidatesList {N : ℤ} {x : ℕ} :
    x ∈ candidatesList N ↔ 1 ≤ x ∧ x ≤ N.toNat := by
  unfold candidatesList
  simp only [List.mem_map, List.mem_range]
  constructor
  · rintro ⟨i, hi, rfl⟩; omega
  · rintro ⟨h1, h2⟩; exact ⟨x - 1, by omega, by omega⟩

theorem foldl_best_s_ge_one (slo : Option ℝ) (theo residuals : ℕ → ℝ) :
    ∀ (l : List ℕ) (acc : SearchAcc), (∀ x ∈ l, 1 ≤ x) → 1 ≤ acc.best_s →
      1 ≤ (l.foldl (searchStep slo theo residuals) acc).best_s := by
  intro l
  induction l with
  | nil => intro acc _ h; simpa using h
  | cons a t ih =>
    intro acc hmem hacc
    rw [List.foldl_cons]
    refine ih _ (fun x hx => hmem x (List.mem_cons_of_mem a hx)) ?_
    unfold searchStep
    by_cases hf : sloFiltered slo (theo a + residuals a)
    · rw [if_pos hf]; exact hacc
    · rw [if_neg hf]
      by_cases hlt : scoreLt (cost_function (theo a + residuals a) a) acc.best_score
      · rw [if_pos hlt]; exact hmem a (List.mem_cons_self a t)
      · rw [if_neg hlt]; exact hacc

/-! ## Claim C4: the SLO filter and the cost argmin (corrected)

When at least one candidate survives the filter the claim is right: the
returned `s` is the first cost-minimizer in ascending order and respects the
SLO.  But when EVERY candidate is filtered out the loop never updates its
accumulator and `predict` falls back to the initial `best_s = 1` with zero
predicted times — and that `s = 1` can violate the SLO, refuting "the
returned s never has predicted total time above the SLO". -/

/-- `T̂_total(s) = T̂_amdahl(s) + T̂_residual(s)` for one candidate of the
LEARNING branch of `predict` (estimator.py line 83). -/
noncomputable def predictTotal (st : Store) (task_name : String) (params : TaskModel)
    (input_quantity : ℝ) (gp : ResidualOracle) (s : ℕ) : ℝ :=
  predictTheo params input_quantity s + gp (get_history st task_name 50) s

/-- C4 (amended): in the LEARNING state with a positive SLO, if some
candidate's predicted total time is within the SLO then the returned `s` is
a candidate within the SLO minimizing `C(s) = T̂_total·√s`, ties broken
toward the smallest `s`; if every candidate exceeds the SLO the loop never
fires and `predict` returns the fallback `s = 1` with zero predicted
decomposition (which may itself violate the SLO). -/
theorem C4_amended_slo_filter (st : Store) (task_name : String)
    (input_quantity cluster_load limit : ℝ) (gp : ResidualOracle)
    (params : TaskModel) (hm : st.models task_name = some params)
    (h2 : 2 ≤ params.sample_count) (hL : 0 < limit) :
    ((∃ s0 ∈ predictCands params,
        predictTotal st task_name params input_quantity gp s0 ≤ limit) →
      ∃ bs, (predict st task_name input_quantity cluster_load (some limit) gp).2.s = bs
        ∧ bs ∈ predictCands params
        ∧ predictTotal st task_name params input_quantity gp bs ≤ limit
        ∧ ∀ x ∈ predictCands params,
            predictTotal st task_name params input_quantity gp x ≤ limit →
            cost_function (predictTotal st task_name params input_quantity gp bs) bs
              ≤ cost_function (predictTotal st task_name params input_quantity gp x) x
            ∧ (cost_function (predictTotal st task_name params input_quantity gp x) x
                = cost_function (predictTotal st task_name params input_quantity gp bs) bs
               → bs ≤ x))
    ∧ ((∀ x ∈ predictCands params,
          limit < predictTotal st task_name params input_quantity gp x) →
        (predict st task_name input_quantity cluster_load (some limit) gp).2 =
          ⟨1, predictGammaOf params input_quantity, 0, 0⟩) := by
  have h1 : ¬ params.sample_count = 1 := by omega
  have hpred : (predict st task_name input_quantity cluster_load (some limit) gp).2
      = ⟨(learningSearch (some limit) (predictTheo params input_quantity)
            (gp (get_history st task_name 50)) (predictCands params)).best_s,
         predictGammaOf params input_quantity,
         (learningSearch (some limit) (predictTheo params input_quantity)
            (gp (get_history st task_name 50)) (predictCands params)).predicted_amdahl,
         (learningSearch (some limit) (predictTheo params input_quantity)
            (gp (get_history st task_name 50)) (predictCands params)).predicted_residual⟩ := by
    simp only [predict, hm, if_neg h1]
  have hpw : List.Pairwise (· < ·) (predictCands params) := by
    unfold predictCands; exact candidatesList_pairwise _
  have hinv : SearchInv (some limit) (predictTheo params input_quantity)
      (gp (get_history st task_name 50)) (predictCands params)
      (learningSearch (some limit) (predictTheo params input_quantity)
        (gp (get_history st task_name 50)) (predictCands params)) := by
    have h := learnFold_inv (some limit) (predictTheo params input_quantity)
      (gp (get_history st task_name 50)) (predictCands params) [] ⟨1, none, 0, 0⟩
      (by intro x hx; simp at hx) hpw
      (Or.inl ⟨by intro x hx; simp at hx, rfl⟩)
    rw [List.nil_append] at h
    exact h
  have hfilt : ∀ t : ℝ, sloFiltered (some limit) t ↔ limit < t := by
    intro t
    simp only [sloFiltered]
    exact ⟨fun h => h.2, fun h => ⟨ne_of_gt hL, h⟩⟩
  constructor
  · rintro ⟨s0, hs0, hs0le⟩
    rcases hinv with ⟨hall, _⟩ | ⟨hmem, hnf, _, _, _, hmin⟩
    · exact absurd ((hfilt _).mp (hall s0 hs0)) (not_lt.mpr hs0le)
    · refine ⟨_, by rw [hpred], hmem, ?_, ?_⟩
      · exact not_lt.mp (fun hlt => hnf ((hfilt _).mpr hlt))
      · intro x hx hxle
        exact hmin x hx (fun hc => absurd ((hfilt _).mp hc) (not_lt.mpr hxle))
  · intro hallf
    rcases hinv with ⟨_, hacc0⟩ | ⟨hmem, hnf, _, _, _, _⟩
    · rw [hpred, hacc0]
    · exact absurd ((hfilt _).mpr (hallf _ hmem)) hnf

theorem learningSearch_all_filtered (slo : Option ℝ) (theo residuals : ℕ → ℝ)
    (l : List ℕ) (h : ∀ x ∈ l, sloFiltered slo (theo x + residuals x)) :
    learningSearch slo theo residuals l = ⟨1, none, 0, 0⟩ := by
  unfold learningSearch
  induction l with
  | nil => rfl
  | cons a t ih =>
    rw [List.foldl_cons]
    have hstep : searchStep slo theo residuals ⟨1, none, 0, 0⟩ a = ⟨1, none, 0, 0⟩ := by
      unfold searchStep
      rw [if_pos (h a (List.mem_cons_self a t))]
    rw [hstep]
    exact ih (fun x hx => h x (List.mem_cons_of_mem a hx))

/-- The candidate set of the learning state at `p_obs = 1/2`:
`max_s = max(⌈1⌉, 15) = 15` and `⌈15·1.5⌉ = 23`. -/
theorem predictCands_mA : predictCands mA = candidatesList 23 := by
  unfold predictCands
  have hf : find_search_space mA.p_obs = 15 := by
    show find_search_space (1/2) = 15
    unfold find_search_space
    rw [if_neg (by norm_num)]
    have h1 : ((1:ℝ)/2) / (1 - 1/2) = 1 := by norm_num
    rw [h1, Int.ceil_one]
    norm_num
  rw [hf]
  congr 1
  rw [show ((15:ℤ):ℝ) * 1.5 = 45/2 by push_cast; norm_num]
  rw [Int.ceil_eq_iff]
  constructor <;> push_cast <;> norm_num

/-- Every learning-state candidate of `stA` at `input_quantity = 1` has
predicted total time `6 + 50 + 50/s > 50` (the untrained GP adds zero). -/
theorem mA_total_gt (x : ℕ) (hx1 : 1 ≤ x) :
    (50:ℝ) < predictTotal stA "A" mA 1 gpZero x := by
  have hxR : (1:ℝ) ≤ (x:ℝ) := by exact_mod_cast hx1
  have hx0 : (0:ℝ) < (x:ℝ) := lt_of_lt_of_le one_pos hxR
  have hγ : predictGammaOf mA 1 = 1 := by norm_num [predictGammaOf, mA]
  simp only [predictTotal, predictTheo, calculate_theoretical_time, gpZero]
  rw [hγ, Real.one_rpow]
  rw [if_neg (not_lt.mpr hxR)]
  simp only [mA]
  have hq : (0:ℝ) < 1/2 / (x:ℝ) * 100 :=
    mul_pos (div_pos (by norm_num) hx0) (by norm_num)
  nlinarith [hq]

theorem mA_total_one : predictTotal stA "A" mA 1 gpZero 1 = 106 := by
  have hγ : predictGammaOf mA 1 = 1 := by norm_num [predictGammaOf, mA]
  simp only [predictTotal, predictTheo, calculate_theoretical_time, gpZero]
  rw [hγ, Real.one_rpow]
  simp only [mA]
  norm_num

/-- C4 (counterexample): in store `stA` (`p_obs = 1/2, t_base_1 = 100,
c_startup = 6, sample_count = 2`, empty history so zero residuals) with
`max_time_slo = 50`, every candidate has `T̂_total ≥ 56 > 50`, all are
filtered out, and `predict` returns `s = 1` with zero predictions — yet the
predicted total time at `s = 1` is `106 > 50`, violating "the returned s
never has predicted total time above the SLO". -/
theorem C4_counterexample :
    (predict stA "A" 1 0 (some 50) gpZero).2 = ⟨1, 1, 0, 0⟩
    ∧ 50 < predictTotal stA "A" mA 1 gpZero 1 := by
  have hmem_all : ∀ x ∈ predictCands mA,
      sloFiltered (some 50) (predictTheo mA 1 x + gpZero (get_history stA "A" 50) x) := by
    intro x hx
    rw [predictCands_mA] at hx
    have hx1 : 1 ≤ x := (mem_candidatesList.mp hx).1
    exact ⟨by norm_num, mA_total_gt x hx1⟩
  have hm : stA.models "A" = some mA := by simp [stA]
  have h1 : ¬ mA.sample_count = 1 := by simp [mA]
  have hls := learningSearch_all_filtered (some 50) (predictTheo mA 1)
      (gpZero (get_history stA "A" 50)) (predictCands mA) hmem_all
  constructor
  · simp only [predict, hm, if_neg h1, hls]
    have hγ : predictGammaOf mA 1 = 1 := by norm_num [predictGammaOf, mA]
    rw [hγ]
  · exact mA_total_gt 1 le_rfl

theorem C4_witness :
    ∃ bs, (predict stA "A" 1 0 (some 200) gpZero).2.s = bs
      ∧ bs ∈ predictCands mA
      ∧ predictTotal stA "A" mA 1 gpZero bs ≤ 200 := by
  have hm : stA.models "A" = some mA := by simp [stA]
  have h1mem : (1:ℕ) ∈ predictCands mA := by
    rw [predictCands_mA]
    exact mem_candidatesList.mpr (by omega)
  have h1tot : predictTotal stA "A" mA 1 gpZero 1 ≤ 200 := by
    rw [mA_total_one]; norm_num
  obtain ⟨bs, ha, hb, hc, _⟩ := (C4_amended_slo_filter stA "A" 1 0 200 gpZero mA hm
      (by norm_num [mA]) (by norm_num)).1 ⟨1, h1mem, h1tot⟩
  exact ⟨bs, ha, hb, hc⟩

/-! ## Claim C10: `get_task_configs` -/

theorem learningSearch_best_s_ge_one (slo : Option ℝ) (theo residuals : ℕ → ℝ)
    (l : List ℕ) (hl : ∀ x ∈ l, 1 ≤ x) :
    1 ≤ (learningSearch slo theo residuals l).best_s := by
  unfold learningSearch
  exact foldl_best_s_ge_one slo theo residuals l ⟨1, none, 0, 0⟩ hl (le_refl 1)

/-- The `s` returned by every branch of `predict` is at least 1. -/
theorem predict_s_ge_one (st : Store) (task_name : String)
    (input_quantity cluster_load : ℝ) (max_time_slo : Option ℝ)
    (gp : ResidualOracle) :
    1 ≤ (predict st task_name input_quantity cluster_load max_time_slo gp).2.s := by
  rcases hsm : st.models task_name with _ | params
  · simp only [predict, hsm, init_task]
    norm_num
  · simp only [predict, hsm]
    by_cases h1 : params.sample_count = 1
    · rw [if_pos h1]
      norm_num
    · rw [if_neg h1]
      dsimp only
      apply learningSearch_best_s_ge_one
      intro x hx
      unfold predictCands at hx
      exact (mem_candidatesList.mp hx).1

/-- C10: the config list has length exactly the `s` chosen by `predict`
(hence at least 1), and its `i`-th element carries `chunk_id = i`,
`total_chunks = s`, and the `gamma`, `amdahl_time`, `residual_prediction`
that `predict` returned. -/
theorem C10_get_task_configs (st : Store) (task_name : String)
    (input_quantity cluster_load : ℝ) (max_time_slo : Option ℝ)
    (gp : ResidualOracle) :
    ∃ r, r = predict st task_name input_quantity cluster_load max_time_slo gp ∧
      (get_task_configs st task_name input_quantity cluster_load max_time_slo gp).2.length
        = r.2.s ∧
      1 ≤ r.2.s ∧
      ∀ i, i < r.2.s →
        (get_task_configs st task_name input_quantity cluster_load max_time_slo gp).2[i]? =
          some ⟨i, r.2.s, r.2.gamma, task_name, r.2.predicted_amdahl,
                r.2.predicted_residual⟩ := by
  refine ⟨_, rfl, ?_,
    predict_s_ge_one st task_name input_quantity cluster_load max_time_slo gp, ?_⟩
  · simp [get_task_configs]
  · intro i hi
    simp [get_task_configs, List.getElem?_map, List.getElem?_range, hi]

theorem C10_witness :
    (get_task_configs emptyStore "A" 1 0 none gpZero).2.length =
      (predict emptyStore "A" 1 0 none gpZero).2.s
    ∧ (get_task_configs emptyStore "A" 1 0 none gpZero).2[0]? =
        some ⟨0, (predict emptyStore "A" 1 0 none gpZero).2.s,
              (predict emptyStore "A" 1 0 none gpZero).2.gamma, "A",
              (predict emptyStore "A" 1 0 none gpZero).2.predicted_amdahl,
              (predict emptyStore "A" 1 0 none gpZero).2.predicted_residual⟩ := by
  obtain ⟨r, hr, hlen, hpos, hidx⟩ := C10_get_task_configs emptyStore "A" 1 0 none gpZero
  subst hr
  exact ⟨hlen, hidx 0 hpos⟩

/-! ## Claim C5: the data-model invariant (corrected)

`initialize_task` is always called by the estimator with its default
`p = 1.0`, and the baseline feedback writes `update_model(new_p=1, …)`, so
`p_obs = 1.0 > 0.99` occurs after the very first operation — the claimed
upper bound `0.99` is false (the code's own test `test_cold_start` asserts
`p_obs == 1.0`).  What does hold for every reachable store is
`0.01 ≤ p_obs ≤ 1.0` and `0.5 ≤ k_exponent ≤ 3.0`: the EMA is a convex
combination of the previous value and a clamped inference. -/

/-- The invariant each task row actually maintains (the α bounds hold
because the estimator always installs the defaults `0.7` / `0.8` and never
changes them; they are what makes the EMA a convex combination). -/
def ModelInv (m : TaskModel) : Prop :=
  0.01 ≤ m.p_obs ∧ m.p_obs ≤ 1 ∧ 0.5 ≤ m.k_exponent ∧ m.k_exponent ≤ 3
  ∧ 0 ≤ m.alpha_p ∧ m.alpha_p ≤ 1 ∧ 0 ≤ m.alpha_k ∧ m.alpha_k ≤ 1

def StoreInv (st : Store) : Prop :=
  ∀ task_name m, st.models task_name = some m → ModelInv m

theorem storeInv_empty : StoreInv emptyStore := by
  intro t m h
  simp [emptyStore] at h

theorem ema_bounds (a b old : ℝ) (cur : Option ℝ) (alpha : ℝ)
    (hold1 : a ≤ old) (hold2 : old ≤ b)
    (hcur : ∀ v, cur = some v → a ≤ v ∧ v ≤ b)
    (hα1 : 0 ≤ alpha) (hα2 : alpha ≤ 1) :
    a ≤ update_moving_average old cur alpha
    ∧ update_moving_average old cur alpha ≤ b := by
  cases cur with
  | none => exact ⟨hold1, hold2⟩
  | some v =>
    obtain ⟨hv1, hv2⟩ := hcur v rfl
    simp only [update_moving_average]
    constructor <;> nlinarith

theorem calc_p_bounds (s t c tb γ k v : ℝ)
    (h : calculate_current_p s t c tb γ k = some v) : 0.01 ≤ v ∧ v ≤ 0.99 := by
  simp only [calculate_current_p] at h
  split_ifs at h
  all_goals
    injection h with h3
  all_goals
    subst h3
  all_goals
    exact ⟨le_max_left _ _, max_le (by norm_num) (min_le_left _ _)⟩

theorem calc_k_bounds (s t c tb γ p v : ℝ)
    (h : calculate_current_k s t c tb γ p = some v) : 0.5 ≤ v ∧ v ≤ 3 := by
  simp only [calculate_current_k] at h
  split_ifs at h
  all_goals
    injection h with h4
  all_goals
    subst h4
  all_goals
    exact ⟨le_max_left _ _,
      max_le (by norm_num) (le_trans (min_le_left _ _) (by norm_num))⟩

theorem storeInv_update_baseline (st : Store) (t : String) (v : ℝ)
    (h : StoreInv st) : StoreInv (update_baseline st t v) := by
  intro n m hm
  simp only [update_baseline] at hm
  by_cases hn : n = t
  · rw [if_pos hn] at hm
    cases hsm : st.models n with
    | none => rw [hsm] at hm; simp at hm
    | some m0 =>
      rw [hsm] at hm
      injection hm with hm
      subst hm
      exact h n m0 hsm
  · rw [if_neg hn] at hm
    exact h n m hm

theorem storeInv_update_model (st : Store) (t : String) (new_p new_k : ℝ)
    (rd : RunData) (ev : ℕ) (st' : Store) (h : StoreInv st)
    (hp1 : 0.01 ≤ new_p) (hp2 : new_p ≤ 1) (hk1 : 0.5 ≤ new_k) (hk2 : new_k ≤ 3)
    (hok : update_model st t new_p new_k rd ev = .ok st') : StoreInv st' := by
  cases hsm : st.models t with
  | none =>
    simp only [update_model, hsm] at hok
    exact absurd hok (by simp)
  | some m0 =>
    simp only [update_model, hsm] at hok
    by_cases hv : m0.sample_count = ev
    · rw [if_pos hv] at hok
      injection hok with hok
      subst hok
      intro n m hm
      dsimp at hm
      by_cases hn : n = t
      · rw [if_pos hn] at hm
        injection hm with hm
        subst hm
        obtain ⟨_, _, _, _, ha1, ha2, hb1, hb2⟩ := h t m0 hsm
        exact ⟨hp1, hp2, hk1, hk2, ha1, ha2, hb1, hb2⟩
      · rw [if_neg hn] at hm
        exact h n m hm
    · rw [if_neg hv] at hok; exact absurd hok (by simp)

theorem storeInv_predict (st : Store) (t : String) (q load : ℝ)
    (slo : Option ℝ) (gp : ResidualOracle) (h : StoreInv st) :
    StoreInv (predict st t q load slo gp).1 := by
  rcases hsm : st.models t with _ | params
  · simp only [predict, hsm, init_task]
    intro n m hm
    dsimp at hm
    by_cases hn : n = t
    · rw [if_pos hn] at hm
      injection hm with hm
      subst hm
      unfold ModelInv
      refine ⟨?_, ?_, ?_, ?_, ?_, ?_, ?_, ?_⟩ <;> norm_num
    · rw [if_neg hn] at hm
      exact h n m hm
  · simp only [predict, hsm]
    by_cases h1 : params.sample_count = 1
    · rw [if_pos h1]; exact h
    · rw [if_neg h1]; exact h

theorem storeInv_updateMatch (st0 : Store) (t : String) (np nk : ℝ)
    (rd : RunData) (ev : ℕ) (h0 : StoreInv st0)
    (hp1 : 0.01 ≤ np) (hp2 : np ≤ 1) (hk1 : 0.5 ≤ nk) (hk2 : nk ≤ 3) :
    StoreInv (match update_model st0 t np nk rd ev with
      | .ok st2 => (st2, AttemptOutcome.success)
      | .error .stale => (st0, AttemptOutcome.staleConflict)
      | .error .notFound => (st0, AttemptOutcome.taskMissing)).1 := by
  cases hum : update_model st0 t np nk rd ev with
  | ok st2 =>
    exact storeInv_update_model st0 t np nk rd ev st2 h0 hp1 hp2 hk1 hk2 hum
  | error e =>
    cases e
    · exact h0
    · exact h0

theorem storeInv_feedbackAttempt (st : Store) (t : String) (s : ℤ)
    (γ load ta pa pr : ℝ) (h : StoreInv st) :
    StoreInv (feedbackAttempt st t s γ load ta pa pr).1 := by
  rcases hsm : st.models t with _ | params
  · simp only [feedbackAttempt, hsm]
    unfold feedbackBaseline
    exact storeInv_updateMatch (update_baseline st t ta) t 1 1 _ 0
      (storeInv_update_baseline st t ta h)
      (by norm_num) (by norm_num) (by norm_num) (by norm_num)
  · simp only [feedbackAttempt, hsm]
    by_cases h0 : params.sample_count = 0
    · rw [if_pos h0]
      unfold feedbackBaseline
      exact storeInv_updateMatch (update_baseline st t ta) t 1 1 _ 0
        (storeInv_update_baseline st t ta h)
        (by norm_num) (by norm_num) (by norm_num) (by norm_num)
    · rw [if_neg h0]
      unfold feedbackLearning
      obtain ⟨hp1, hp2, hk1, hk2, ha1, ha2, hb1, hb2⟩ := h t params hsm
      have hnp := ema_bounds 0.01 1 params.p_obs
        (calculate_current_p (s : ℝ) ta params.c_startup params.t_base_1 γ
          params.k_exponent) params.alpha_p hp1 hp2
        (fun v hv => ⟨(calc_p_bounds _ _ _ _ _ _ v hv).1,
          le_trans (calc_p_bounds _ _ _ _ _ _ v hv).2 (by norm_num)⟩) ha1 ha2
      have hnk := ema_bounds 0.5 3 params.k_exponent
        (calculate_current_k (s : ℝ) ta params.c_startup params.t_base_1 γ
          (update_moving_average params.p_obs
            (calculate_current_p (s : ℝ) ta params.c_startup params.t_base_1 γ
              params.k_exponent) params.alpha_p)) params.alpha_k hk1 hk2
        (fun v hv => calc_k_bounds _ _ _ _ _ _ v hv) hb1 hb2
      exact storeInv_updateMatch st t _ _ _ params.sample_count h
        hnp.1 hnp.2 hnk.1 hnk.2

theorem storeInv_feedbackLoop (t : String) (s : ℤ) (γ load ta pa pr : ℝ) :
    ∀ n st, StoreInv st →
      StoreInv (feedbackLoop t s γ load ta pa pr n st).1 := by
  intro n
  induction n with
  | zero => intro st h; exact h
  | succ n ih =>
    intro st h
    have hatt := storeInv_feedbackAttempt st t s γ load ta pa pr h
    rcases hfa : feedbackAttempt st t s γ load ta pa pr with ⟨st', out⟩
    rw [hfa] at hatt
    cases out
    all_goals simp only [feedbackLoop, hfa, consRetry]
    · exact hatt
    · exact ih st' hatt
    · exact ih st' hatt

theorem reach_storeInv (st : Store) (h : Reach st) : StoreInv st := by
  induction h with
  | empty => exact storeInv_empty
  | predictStep st t q load slo gp _ ih => exact storeInv_predict st t q load slo gp ih
  | feedbackStep st t s γ load ta pa pr _ ih =>
    unfold feedback
    exact storeInv_feedbackLoop t s γ load ta pa pr 3 st ih

/-- C5 (counterexample): the very first operation of the system — `predict`
on an unseen task — creates a row with `p_obs = 1.0`, violating the claimed
invariant `p_obs ≤ 0.99` (the code's own test asserts `p_obs == 1.0` after
this state; the baseline feedback likewise writes `new_p = 1`). -/
theorem C5_counterexample :
    (predict emptyStore "A" 1 0 none gpZero).1.models "A" =
      some ⟨0, 1, 1, 1.0, 6, 0.7, 0.8, 0⟩
    ∧ ¬ ((⟨0, 1, 1, 1.0, 6, 0.7, 0.8, 0⟩ : TaskModel).p_obs ≤ 0.99) := by
  constructor
  · simp [predict, init_task, emptyStore]
  · norm_num

/-- C5 (amended): in every store reachable by the system's operations from
an empty database, every task row satisfies `0.01 ≤ p_obs ≤ 1.0` (the upper
bound `0.99` of the claim is raised to `1.0`, which `initialize_task` and
the baseline feedback write) and `0.5 ≤ k_exponent ≤ 3.0` as claimed. -/
theorem C5_amended_invariant (st : Store) (h : Reach st) (task_name : String)
    (m : TaskModel) (hm : st.models task_name = some m) :
    0.01 ≤ m.p_obs ∧ m.p_obs ≤ 1 ∧ 0.5 ≤ m.k_exponent ∧ m.k_exponent ≤ 3 := by
  obtain ⟨h1, h2, h3, h4, _, _, _, _⟩ := reach_storeInv st h task_name m hm
  exact ⟨h1, h2, h3, h4⟩

theorem C5_witness :
    0.01 ≤ (⟨0, 1, 1, 1.0, 6, 0.7, 0.8, 0⟩ : TaskModel).p_obs
    ∧ (⟨0, 1, 1, 1.0, 6, 0.7, 0.8, 0⟩ : TaskModel).p_obs ≤ 1
    ∧ 0.5 ≤ (⟨0, 1, 1, 1.0, 6, 0.7, 0.8, 0⟩ : TaskModel).k_exponent
    ∧ (⟨0, 1, 1, 1.0, 6, 0.7, 0.8, 0⟩ : TaskModel).k_exponent ≤ 3 :=
  C5_amended_invariant (predict emptyStore "A" 1 0 none gpZero).1
    (Reach.predictStep emptyStore "A" 1 0 none gpZero Reach.empty)
    "A" ⟨0, 1, 1, 1.0, 6, 0.7, 0.8, 0⟩
    (by simp [predict, init_task, emptyStore])
